import Mathlib

/-!
Verification of the transaction-windowed aggregation pipeline of the
Pump.fun wallet tracker (src/walletTracker.ts).

The TypeScript source is shallowly embedded below.  Monetary amounts
(SOL values, token amounts already divided by 1e9, USD values) are
modelled as rationals.  A JavaScript number that may be NaN (the result
of parsing a token-amount string, and the profit field it flows into) is
modelled as an Option over the rationals, with none standing for NaN:
arithmetic on none yields none, and every comparison with none is false,
except that the strict-inequality test (change !== 0) used by the ledger
update is true on none, exactly as NaN !== 0 is true in JavaScript.
JavaScript string truthiness (the empty string is falsy) is modelled
explicitly.  Fallible RPC calls are modelled as functions returning
Option or Except values.
-/

namespace WalletTracker

/-! ### Constants (src/walletTracker.ts, lines 22-31) -/

def LAMPORTS_PER_SOL : ℚ := 1000000000

def MAX_RETRIES : Nat := 5

def INITIAL_BACKOFF : Nat := 1000

def BATCH_SIZE : Nat := 50

def MAX_TRANSACTIONS_PER_INTERVAL : Nat := 800

def MAX_TRANSACTIONS : Nat := 1000

def MIN_TRADES : Nat := 3

/-! ### withRetry (lines 48-63) -/

/-- An error thrown by an RPC operation; only its message is consulted. -/
structure RpcError where
  message : String
deriving DecidableEq, Repr

/-- Test whether the second character list occurs at the head of the first. -/
def listStartsWith : List Char → List Char → Bool
  | _, [] => true
  | [], _ :: _ => false
  | a :: s, b :: p => a == b && listStartsWith s p

/-- Test whether the second character list occurs as a contiguous
sublist of the first. -/
def listIncludes : List Char → List Char → Bool
  | [], p => p.isEmpty
  | a :: t, p => listStartsWith (a :: t) p || listIncludes t p

/-- JavaScript String.prototype.includes: substring containment on the
underlying character sequences. -/
def strIncludes (s pat : String) : Bool := listIncludes s.data pat.data

/-- Classification of an error as rate limited, from line 52:
error?.message?.includes(429). -/
def isRateLimitError (e : RpcError) : Bool := strIncludes e.message "429"

/-- Shallow embedding of withRetry (lines 48-63).  The operation is a
function from the retryCount value it is invoked with to its outcome,
so attempt number k corresponds to argument k - 1.  The result carries
the list of backoff delays slept before each retry, in order; its
length is the number of retries performed, so the number of attempts
made is one more than the length of the delay list. -/
def withRetry {α : Type} (op : Nat → Except RpcError α) (retryCount : Nat) :
    Except RpcError α × List Nat :=
  match op retryCount with
  | Except.ok v => (Except.ok v, [])
  | Except.error e =>
    if h : isRateLimitError e = true ∧ retryCount < MAX_RETRIES then
      let rest := withRetry op (retryCount + 1)
      (rest.1, INITIAL_BACKOFF * 2 ^ retryCount :: rest.2)
    else
      (Except.error e, [])
termination_by MAX_RETRIES - retryCount
decreasing_by omega

theorem withRetry_ok {α : Type} (op : Nat → Except RpcError α) (k : Nat) (v : α)
    (hv : op k = Except.ok v) : withRetry op k = (Except.ok v, []) := by
  rw [withRetry, hv]

theorem withRetry_retry {α : Type} (op : Nat → Except RpcError α) (k : Nat) (e : RpcError)
    (he : op k = Except.error e) (h429 : isRateLimitError e = true) (hk : k < MAX_RETRIES) :
    withRetry op k =
      ((withRetry op (k + 1)).1, INITIAL_BACKOFF * 2 ^ k :: (withRetry op (k + 1)).2) := by
  rw [withRetry, he]
  simp [h429, hk]

theorem withRetry_stop {α : Type} (op : Nat → Except RpcError α) (k : Nat) (e : RpcError)
    (he : op k = Except.error e) (hstop : isRateLimitError e = false ∨ MAX_RETRIES ≤ k) :
    withRetry op k = (Except.error e, []) := by
  rw [withRetry, he]
  have : ¬(isRateLimitError e = true ∧ k < MAX_RETRIES) := by
    rcases hstop with h | h
    · simp [h]
    · omega
  simp [this]

/-- Claim C3: for every operation passed to withRetry, a failure whose
message contains 429 is retried after an exponential backoff delay of
INITIAL_BACKOFF * 2 ^ k, with at most MAX_RETRIES = 5 retries, and once
the cap is exceeded the rate-limit error of the final attempt is
surfaced unmodified; a failure not classified as rate limited propagates
immediately with no retry; and when attempts 1 through 4 fail rate
limited and attempt 5 (retryCount 4) succeeds, the wrapper returns the
result of attempt 5 after exactly four backoff sleeps of 1000, 2000,
4000 and 8000 ms, so attempt 6 never occurs. -/
theorem claim_C3_withRetry_backoff {α : Type} (op : Nat → Except RpcError α) :
    (∀ e, op 0 = Except.error e → isRateLimitError e = false →
      withRetry op 0 = (Except.error e, [])) ∧
    ((∀ k, k ≤ MAX_RETRIES →
        ∃ e, op k = Except.error e ∧ isRateLimitError e = true) →
      ∃ e, op MAX_RETRIES = Except.error e ∧
        withRetry op 0 = (Except.error e, [1000, 2000, 4000, 8000, 16000])) ∧
    (∀ v, (∀ k, k < 4 →
        ∃ e, op k = Except.error e ∧ isRateLimitError e = true) →
      op 4 = Except.ok v →
      withRetry op 0 = (Except.ok v, [1000, 2000, 4000, 8000])) := by
  refine ⟨?_, ?_, ?_⟩
  · intro e he h429
    exact withRetry_stop op 0 e he (Or.inl h429)
  · intro hall
    obtain ⟨e0, he0, hr0⟩ := hall 0 (by norm_num [MAX_RETRIES])
    obtain ⟨e1, he1, hr1⟩ := hall 1 (by norm_num [MAX_RETRIES])
    obtain ⟨e2, he2, hr2⟩ := hall 2 (by norm_num [MAX_RETRIES])
    obtain ⟨e3, he3, hr3⟩ := hall 3 (by norm_num [MAX_RETRIES])
    obtain ⟨e4, he4, hr4⟩ := hall 4 (by norm_num [MAX_RETRIES])
    obtain ⟨e5, he5, hr5⟩ := hall 5 (by norm_num [MAX_RETRIES])
    refine ⟨e5, he5, ?_⟩
    rw [withRetry_retry op 0 e0 he0 hr0 (by norm_num [MAX_RETRIES]),
      withRetry_retry op 1 e1 he1 hr1 (by norm_num [MAX_RETRIES]),
      withRetry_retry op 2 e2 he2 hr2 (by norm_num [MAX_RETRIES]),
      withRetry_retry op 3 e3 he3 hr3 (by norm_num [MAX_RETRIES]),
      withRetry_retry op 4 e4 he4 hr4 (by norm_num [MAX_RETRIES]),
      withRetry_stop op 5 e5 he5 (Or.inr (by norm_num [MAX_RETRIES]))]
    norm_num [INITIAL_BACKOFF]
  · intro v hlow hok
    obtain ⟨e0, he0, hr0⟩ := hlow 0 (by norm_num)
    obtain ⟨e1, he1, hr1⟩ := hlow 1 (by norm_num)
    obtain ⟨e2, he2, hr2⟩ := hlow 2 (by norm_num)
    obtain ⟨e3, he3, hr3⟩ := hlow 3 (by norm_num)
    rw [withRetry_retry op 0 e0 he0 hr0 (by norm_num [MAX_RETRIES]),
      withRetry_retry op 1 e1 he1 hr1 (by norm_num [MAX_RETRIES]),
      withRetry_retry op 2 e2 he2 hr2 (by norm_num [MAX_RETRIES]),
      withRetry_retry op 3 e3 he3 hr3 (by norm_num [MAX_RETRIES]),
      withRetry_ok op 4 v hok]
    norm_num [INITIAL_BACKOFF]

/-- A concrete operation for exercising claim C3: rate-limit failures on
attempts 1 through 4, success on attempt 5. -/
def retryDemoOp : Nat → Except RpcError Nat := fun k =>
  if k < 4 then Except.error ⟨"429 Too Many Requests"⟩ else Except.ok 42

/-- Witness for claim C3 at a concrete operation. -/
theorem claim_C3_withRetry_backoff_witness :
    withRetry retryDemoOp 0 = (Except.ok 42, [1000, 2000, 4000, 8000]) :=
  (claim_C3_withRetry_backoff retryDemoOp).2.2 42
    (fun k hk => ⟨⟨"429 Too Many Requests"⟩, by interval_cases k <;> exact ⟨rfl, by decide⟩⟩)
    rfl

/-! ### Transaction data model (external interface, lines 81-131, 238-258) -/

/-- The uiTokenAmount object of a token-balance entry.  Its amount field
holds the result of JavaScript Number applied to the raw amount string:
none stands for NaN (an unparseable amount), some q for the parsed
numeric value. -/
structure UiTokenAmount where
  amount : Option ℚ
deriving DecidableEq, Repr

/-- One entry of meta.preTokenBalances or meta.postTokenBalances.
The owner field is absent (none) or a string, possibly empty. -/
structure TokenBalance where
  owner : Option String
  uiTokenAmount : Option UiTokenAmount
deriving DecidableEq, Repr

/-- The meta object of a fetched transaction.  The native balances are
lamport integers; each of the four lists may be absent. -/
structure TxMeta where
  preBalances : Option (List ℤ)
  postBalances : Option (List ℤ)
  preTokenBalances : Option (List TokenBalance)
  postTokenBalances : Option (List TokenBalance)
deriving DecidableEq, Repr

/-- A fetched transaction; meta may be null. -/
structure Transaction where
  meta : Option TxMeta
deriving DecidableEq, Repr

/-- JavaScript truthiness of an optional string: undefined and the empty
string are falsy. -/
def truthyOwner : Option String → Bool
  | some s => !s.isEmpty
  | none => false

/-- The parsed amount carried by a token-balance entry, as consulted via
Number(tb.uiTokenAmount.amount); none when the uiTokenAmount object is
absent or its amount does not parse (NaN). -/
def tokenAmount (tb : TokenBalance) : Option ℚ :=
  tb.uiTokenAmount.bind (fun u => u.amount)

/-- The guarded per-index check of isTradeTransaction (lines 90-102):
the post entry must be present, the pre entry must carry a truthy owner,
both entries must carry a uiTokenAmount object, and the parsed amounts
must differ; Math.abs(post - pre) > 0 is false whenever either amount is
NaN. -/
def tokenPairTrade (pre : TokenBalance) (post? : Option TokenBalance) : Bool :=
  match post? with
  | none => false
  | some post =>
    truthyOwner pre.owner && pre.uiTokenAmount.isSome && post.uiTokenAmount.isSome &&
      match tokenAmount pre, tokenAmount post with
      | some preAmount, some postAmount => decide (0 < |postAmount - preAmount|)
      | _, _ => false

/-- Shallow embedding of isTradeTransaction (lines 81-106). -/
def isTradeTransaction (tx : Transaction) : Bool :=
  match tx.meta with
  | none => false
  | some meta =>
    match meta.preTokenBalances, meta.postTokenBalances with
    | some preBalances, some postBalances =>
      (List.range preBalances.length).any (fun i =>
        match preBalances[i]? with
        | some pre => tokenPairTrade pre postBalances[i]?
        | none => false)
    | _, _ => false

/-- Shallow embedding of calculateTradeValue (lines 109-131): sum, over
index-aligned native balance pairs that are both present, of the
absolute lamport difference converted to SOL, counting only changes
greater than the 0.001 SOL dust threshold. -/
def calculateTradeValue (tx : Transaction) : ℚ :=
  match tx.meta with
  | none => 0
  | some meta =>
    match meta.preBalances, meta.postBalances with
    | some preBalances, some postBalances =>
      (List.range preBalances.length).foldl (fun totalChange i =>
        match preBalances[i]?, postBalances[i]? with
        | some preBalance, some postBalance =>
          let change := |((postBalance - preBalance : ℤ) : ℚ)| / LAMPORTS_PER_SOL
          if 1 / 1000 < change then totalChange + change else totalChange
        | _, _ => totalChange) 0
    | _, _ => 0

/-! ### Ledger (profitTraders, lines 146-154, 169-179, 253-284) -/

/-- One TraderRecord of the profitTraders ledger (interface TraderData,
lines 146-154).  The profit and usdProfit fields can become NaN when an
unparseable token amount flows into them, so they are optional
rationals; the remaining numeric fields can never become NaN. -/
structure TraderData where
  profit : Option ℚ
  trades : Nat
  totalVolume : ℚ
  successfulTrades : Nat
  averageTradeSize : ℚ
  solBalance : ℚ
  usdProfit : Option ℚ
deriving DecidableEq, Repr

/-- The record created for a newly seen owner (lines 261-269). -/
def initTrader : TraderData :=
  { profit := some 0, trades := 0, totalVolume := 0, successfulTrades := 0,
    averageTradeSize := 0, solBalance := 0, usdProfit := some 0 }

/-- The ledger: a JavaScript object keyed by owner address, modelled as
an association list in insertion order with unique keys. -/
abbrev Ledger : Type := List (String × TraderData)

/-- Object property lookup on the ledger. -/
def lookupTrader (ledger : Ledger) (owner : String) : Option TraderData :=
  (List.find? (fun e => e.1 == owner) ledger).map (fun e => e.2)

/-- Lookup-or-create followed by in-place mutation: a missing key is
created at the end of the object (insertion order), an existing entry is
replaced by the updated record (lines 260-270). -/
def updateTrader : Ledger → String → (TraderData → TraderData) → Ledger
  | [], owner, f => [(owner, f initTrader)]
  | e :: rest, owner, f =>
    if e.1 = owner then (owner, f e.2) :: rest
    else e :: updateTrader rest owner f

/-- JavaScript subtraction of two possibly-NaN numbers. -/
def numSub : Option ℚ → Option ℚ → Option ℚ
  | some a, some b => some (a - b)
  | _, _ => none

/-- JavaScript addition of two possibly-NaN numbers. -/
def numAdd : Option ℚ → Option ℚ → Option ℚ
  | some a, some b => some (a + b)
  | _, _ => none

/-- JavaScript test x !== 0 on a possibly-NaN number: true for NaN. -/
def numNeZero : Option ℚ → Bool
  | some q => decide (q ≠ 0)
  | none => true

/-- JavaScript test x > 0 on a possibly-NaN number: false for NaN. -/
def numPos : Option ℚ → Bool
  | some q => decide (0 < q)
  | none => false

/-- The mutation applied to one TraderRecord for one qualifying
balance-change pair (lines 272-281): add change / 1e9 to profit,
increment trades, add the whole tradeValue of the transaction to
totalVolume, increment successfulTrades when the change is positive, and
recompute averageTradeSize as totalVolume / trades. -/
def applyPairUpdate (tradeValue : ℚ) (change : Option ℚ) (t : TraderData) : TraderData :=
  { profit := numAdd t.profit (change.map (fun c => c / LAMPORTS_PER_SOL))
    trades := t.trades + 1
    totalVolume := t.totalVolume + tradeValue
    successfulTrades := t.successfulTrades + (if numPos change then 1 else 0)
    averageTradeSize := (t.totalVolume + tradeValue) / ((t.trades : ℚ) + 1)
    solBalance := t.solBalance
    usdProfit := t.usdProfit }

/-- Processing of one index-aligned token-balance pair inside the
aggregation loop (lines 253-284): the guard mirrors line 257, the change
is Number(post amount) - Number(pre amount), and a change that is not
strictly equal to 0 (which includes NaN) updates the record of the owner
named by the pre entry. -/
def applyPair (tradeValue : ℚ) (ledger : Ledger) (pre : TokenBalance)
    (post? : Option TokenBalance) : Ledger :=
  match post? with
  | none => ledger
  | some post =>
    if truthyOwner pre.owner && pre.uiTokenAmount.isSome && post.uiTokenAmount.isSome then
      let change := numSub (tokenAmount post) (tokenAmount pre)
      if numNeZero change then
        updateTrader ledger (pre.owner.getD "") (applyPairUpdate tradeValue change)
      else ledger
    else ledger

/-- Processing of one fetched transaction (lines 244-284): a null meta
is skipped, a transaction that is not a trade is skipped, a trade value
of 0 is skipped, and otherwise every index of the preTokenBalances list
(absent lists defaulting to empty, lines 250-251) is folded through
applyPair. -/
def applyTransaction (ledger : Ledger) (tx : Transaction) : Ledger :=
  match tx.meta with
  | none => ledger
  | some meta =>
    if isTradeTransaction tx then
      let tradeValue := calculateTradeValue tx
      if tradeValue = 0 then ledger
      else
        let preBalances := meta.preTokenBalances.getD []
        let postBalances := meta.postTokenBalances.getD []
        (List.range preBalances.length).foldl (fun led i =>
          match preBalances[i]? with
          | some pre => applyPair tradeValue led pre postBalances[i]?
          | none => led) ledger
    else ledger

/-! ### Signature pagination and the per-window loop (lines 181-311) -/

/-- One entry returned by getSignaturesForAddress: the signature string
used as the pagination cursor, and an optional block time in seconds. -/
structure SigInfo where
  signature : String
  blockTime : Option ℤ
deriving DecidableEq, Repr

/-- The millisecond timestamp attributed to a signature (lines 207 and
211): blockTime * 1000 when blockTime is present (a blockTime of 0 is
falsy in JavaScript, but the ternary then yields 0 = 0 * 1000 anyway),
and 0 when it is missing. -/
def sigTimeMs (s : SigInfo) : ℤ :=
  match s.blockTime with
  | some t => t * 1000
  | none => 0

/-- Processing of one accumulated signature (lines 235-294): fetch the
transaction (none models a null response or a caught per-transaction
error) and fold it into the ledger. -/
def processSig (txFetch : String → Option Transaction) (ledger : Ledger)
    (s : SigInfo) : Ledger :=
  match txFetch s.signature with
  | none => ledger
  | some tx => applyTransaction ledger tx

/-- One processing pass over the accumulated signature list
(line 235: for sig of allSignatures). -/
def processAll (txFetch : String → Option Transaction) (ledger : Ledger)
    (sigs : List SigInfo) : Ledger :=
  sigs.foldl (processSig txFetch) ledger

/-- The state left by one window of trackProfitablePumpFunTraders:
the accumulated signature list, the totalFetched counter, the ledger,
and the chronological list of signatures handed to processing, with one
occurrence per processing event (so a signature occurring twice was
fetched, classified and applied twice). -/
structure WindowResult where
  allSignatures : List SigInfo
  totalFetched : Nat
  ledger : Ledger
  processedLog : List String
deriving DecidableEq, Repr

/-- Shallow embedding of the per-window while loop (lines 193-303).
The provider is a function from the before cursor to the returned page.
The keepFetching flag of the source is flattened into the branch
structure: the too-old branch and the cap branch end the loop (both run
a processing pass, since processing triggers on totalFetched % 200 === 0
or on keepFetching having become false), and the continuing branch runs
a processing pass exactly when totalFetched % 200 === 0.  Every
processing pass iterates over the whole accumulated signature list.
The fuel argument only bounds the recursion depth so that the function
is structurally recursive and computable by reduction: the body recurses
only while totalFetched strictly increases yet stays below
MAX_TRANSACTIONS_PER_INTERVAL, so with the fuel used by runWindow the
zero-fuel case is unreachable (theorem windowLoop_fuel_stable). -/
def windowLoop (fetch : Option String → List SigInfo)
    (txFetch : String → Option Transaction) (now ms : ℤ) :
    Nat → List SigInfo → Option String → Nat → Ledger → List String → WindowResult
  | 0, allSigs, _, totalFetched, ledger, log => ⟨allSigs, totalFetched, ledger, log⟩
  | fuel + 1, allSigs, lastSig, totalFetched, ledger, log =>
    if totalFetched < MAX_TRANSACTIONS_PER_INTERVAL then
      let sigs := fetch lastSig
      if sigs.isEmpty then
        ⟨allSigs, totalFetched, ledger, log⟩
      else
        let oldestTxTime : ℤ := match sigs.getLast? with
          | some oldestTx => sigTimeMs oldestTx
          | none => 0
        if oldestTxTime < now - ms then
          let validSignatures := sigs.filter (fun s => decide (now - ms ≤ sigTimeMs s))
          let allSigs2 := allSigs ++ validSignatures
          ⟨allSigs2, totalFetched + sigs.length,
            processAll txFetch ledger allSigs2,
            log ++ allSigs2.map (fun s => s.signature)⟩
        else
          let allSigs2 := allSigs ++ sigs
          let lastSig2 : Option String := match sigs.getLast? with
            | some oldestTx => some oldestTx.signature
            | none => lastSig
          let total2 := totalFetched + sigs.length
          if MAX_TRANSACTIONS_PER_INTERVAL ≤ total2 then
            ⟨allSigs2, total2,
              processAll txFetch ledger allSigs2,
              log ++ allSigs2.map (fun s => s.signature)⟩
          else
            if total2 % 200 == 0 then
              windowLoop fetch txFetch now ms fuel allSigs2 lastSig2 total2
                (processAll txFetch ledger allSigs2)
                (log ++ allSigs2.map (fun s => s.signature))
            else
              windowLoop fetch txFetch now ms fuel allSigs2 lastSig2 total2 ledger log
    else
      ⟨allSigs, totalFetched, ledger, log⟩

/-- The result of the loop does not depend on the fuel as long as the
fuel exceeds MAX_TRANSACTIONS_PER_INTERVAL - totalFetched: the loop
always reaches one of its stop conditions first, which is the
termination argument for the source loop (every iteration either stops
or strictly increases totalFetched toward the cap). -/
theorem windowLoop_fuel_stable (fetch : Option String → List SigInfo)
    (txFetch : String → Option Transaction) (now ms : ℤ) :
    ∀ (fuel1 fuel2 : Nat) (allSigs : List SigInfo) (lastSig : Option String)
      (totalFetched : Nat) (ledger : Ledger) (log : List String),
      MAX_TRANSACTIONS_PER_INTERVAL - totalFetched < fuel1 →
      MAX_TRANSACTIONS_PER_INTERVAL - totalFetched < fuel2 →
      windowLoop fetch txFetch now ms fuel1 allSigs lastSig totalFetched ledger log =
        windowLoop fetch txFetch now ms fuel2 allSigs lastSig totalFetched ledger log := by
  intro fuel1
  induction fuel1 with
  | zero =>
    intro fuel2 allSigs lastSig totalFetched ledger log h1 _
    exact absurd h1 (Nat.not_lt_zero _)
  | succ f ih =>
    intro fuel2 allSigs lastSig totalFetched ledger log h1 h2
    cases fuel2 with
    | zero => exact absurd h2 (Nat.not_lt_zero _)
    | succ f2 =>
      simp only [windowLoop]
      by_cases hrun : totalFetched < MAX_TRANSACTIONS_PER_INTERVAL
      · simp only [if_pos hrun]
        by_cases hemp : (fetch lastSig).isEmpty
        · simp only [hemp, if_true]
        · have hne : fetch lastSig ≠ [] := by
            intro hnil
            exact hemp (by simp [hnil])
          have hlen : 0 < (fetch lastSig).length := List.length_pos.mpr hne
          simp only [hemp, if_false]
          by_cases htoo : (match (fetch lastSig).getLast? with
              | some oldestTx => sigTimeMs oldestTx
              | none => 0) < now - ms
          · rw [if_pos htoo, if_pos htoo]
          · rw [if_neg htoo, if_neg htoo]
            by_cases hcap :
                MAX_TRANSACTIONS_PER_INTERVAL ≤ totalFetched + (fetch lastSig).length
            · rw [if_pos hcap, if_pos hcap]
            · rw [if_neg hcap, if_neg hcap]
              have hb1 : MAX_TRANSACTIONS_PER_INTERVAL -
                  (totalFetched + (fetch lastSig).length) < f := by omega
              have hb2 : MAX_TRANSACTIONS_PER_INTERVAL -
                  (totalFetched + (fetch lastSig).length) < f2 := by omega
              by_cases hmod : (totalFetched + (fetch lastSig).length) % 200 == 0
              · rw [if_pos hmod, if_pos hmod]
                exact ih f2 _ _ _ _ _ hb1 hb2
              · rw [if_neg hmod, if_neg hmod]
                exact ih f2 _ _ _ _ _ hb1 hb2
      · simp only [if_neg hrun]

/-- One window of trackProfitablePumpFunTraders, starting from an empty
signature list, no cursor, a zero counter and an empty ledger
(lines 188-192, 310), with enough fuel for the loop to always reach a
stop condition. -/
def runWindow (fetch : Option String → List SigInfo)
    (txFetch : String → Option Transaction) (now ms : ℤ) : WindowResult :=
  windowLoop fetch txFetch now ms (MAX_TRANSACTIONS_PER_INTERVAL + 1) [] none 0 [] []

/-! ### displayResults (lines 318-334) -/

/-- The eligibility filter of line 321-325: trades >= MIN_TRADES,
profit > 0 (false when profit is NaN), and a win rate strictly greater
than 0.5. -/
def eligibleFilter (d : TraderData) : Bool :=
  decide (MIN_TRADES ≤ d.trades) && numPos d.profit &&
    decide ((1 : ℚ) / 2 < (d.successfulTrades : ℚ) / (d.trades : ℚ))

/-- The profit key used by the sort comparator of line 326; the NaN
fallback 0 is unreachable in displayResults because the filter has
already required profit > 0. -/
def profitKey (p : Option ℚ) : ℚ := p.getD 0

/-- The comparator b.profit - a.profit of line 326, as the Boolean
ordering relation it realises: a precedes b when the profit of a is at
least the profit of b (descending order, stable on ties). -/
def profitDescLe (a b : String × TraderData) : Bool :=
  decide (profitKey b.2.profit ≤ profitKey a.2.profit)

/-- The selection of lines 320-327: filter the entries of the ledger
object in insertion order, sort descending by profit (JavaScript sort is
stable), and take the first 10. -/
def eligibleTraders (ledger : Ledger) : Ledger :=
  (((ledger.filter (fun e => eligibleFilter e.2)).mergeSort profitDescLe).take 10)

/-- The per-selected-record mutation of lines 330-334: fetch the live
SOL balance and store profit * solPrice in usdProfit (NaN propagates
through the multiplication). -/
def enrichTrader (balanceOf : String → ℚ) (solPrice : ℚ)
    (e : String × TraderData) : String × TraderData :=
  (e.1, { e.2 with
    solBalance := balanceOf e.1
    usdProfit := e.2.profit.map (fun p => p * solPrice) })

/-- Shallow embedding of displayResults (lines 318-334): it returns the
ledger as mutated through the shared record references (only the
selected entries change, and only their solBalance and usdProfit
fields), together with the ordered report handed to the presentation
layer. -/
def displayResults (ledger : Ledger) (balanceOf : String → ℚ) (solPrice : ℚ) :
    Ledger × Ledger :=
  let selected := (eligibleTraders ledger).map (fun e => e.1)
  (ledger.map (fun e =>
      if selected.contains e.1 then enrichTrader balanceOf solPrice e else e),
    (eligibleTraders ledger).map (enrichTrader balanceOf solPrice))

/-! ### Claim C5: the two-pair attribution scenario -/

/-- The transaction of the claim C5 scenario: native balances move by
2.3e9 lamports (trade value 2.3 SOL), and two index-aligned token
balance pairs give wallet A a raw delta of +5e9 (display-unit delta +5)
and wallet B a raw delta of -5e9 (display-unit delta -5). -/
def scenarioTx : Transaction :=
  { meta := some
      ({ preBalances := some [0]
         postBalances := some [2300000000]
         preTokenBalances := some
           [ { owner := some "A", uiTokenAmount := some ({ amount := some 0 }) },
             { owner := some "B", uiTokenAmount := some ({ amount := some 5000000000 }) } ]
         postTokenBalances := some
           [ { owner := some "A", uiTokenAmount := some ({ amount := some 5000000000 }) },
             { owner := some "B", uiTokenAmount := some ({ amount := some 0 }) } ] }) }

unseal Rat.add Rat.mul Rat.inv Rat.sub in
/-- Claim C5: applying one transaction with two qualifying index-aligned
balance-change pairs, wallet A with display-unit delta +5 (raw 5e9),
wallet B with display-unit delta -5, and transaction trade value 2.3, to
an empty ledger yields for A the record profit 5, trades 1,
successfulTrades 1, totalVolume 2.3 and for B the record profit -5,
trades 1, successfulTrades 0, totalVolume 2.3: the whole trade value is
credited to both wallets, and successfulTrades is incremented only for
the strictly positive delta. -/
theorem claim_C5_twoPairScenario :
    calculateTradeValue scenarioTx = 23 / 10 ∧
    applyTransaction [] scenarioTx =
      [ ("A", { profit := some 5, trades := 1, totalVolume := 23 / 10,
                successfulTrades := 1, averageTradeSize := 23 / 10,
                solBalance := 0, usdProfit := some 0 }),
        ("B", { profit := some (-5), trades := 1, totalVolume := 23 / 10,
                successfulTrades := 0, averageTradeSize := 23 / 10,
                solBalance := 0, usdProfit := some 0 }) ] := by
  decide

/-! ### Claim C7: the isTradeTransaction characterisation -/

/-- Formalisation of the condition worded by claim C7 (and spec section
4.3): an index-aligned pre/post pair, both present, BOTH carrying an
owner and a parsed amount, with the two amounts differing; false when
either snapshot list is absent. -/
def specBothOwnersTrade (tx : Transaction) : Bool :=
  match tx.meta with
  | none => false
  | some meta =>
    match meta.preTokenBalances, meta.postTokenBalances with
    | some preBalances, some postBalances =>
      (List.range preBalances.length).any (fun i =>
        match preBalances[i]?, postBalances[i]? with
        | some pre, some post =>
          truthyOwner pre.owner && truthyOwner post.owner &&
            match tokenAmount pre, tokenAmount post with
            | some preAmount, some postAmount => decide (preAmount ≠ postAmount)
            | _, _ => false
        | _, _ => false)
    | _, _ => false

/-- A transaction whose only token-balance pair has an owner on the pre
entry but no owner on the post entry, with differing parsed amounts. -/
def ownerlessPostTx : Transaction :=
  { meta := some
      ({ preBalances := none
         postBalances := none
         preTokenBalances := some
           [ { owner := some "A", uiTokenAmount := some ({ amount := some 1 }) } ]
         postTokenBalances := some
           [ { owner := none, uiTokenAmount := some ({ amount := some 2 }) } ] }) }

unseal Rat.sub in
/-- Counterexample to claim C7 as stated: isTradeTransaction accepts a
transaction whose post entry carries no owner, because line 94 of the
source tests only the owner of the pre entry, so the claimed
characterisation (both entries carrying an owner) is violated. -/
theorem claim_C7_isTrade_counterexample :
    isTradeTransaction ownerlessPostTx = true ∧
    specBothOwnersTrade ownerlessPostTx = false := by
  decide

/-- Claim C7 as amended: isTradeTransaction returns true iff both
snapshot lists are present and some index holds a pre entry with a
truthy owner and a pair of present uiTokenAmount objects whose parsed
amounts differ; the owner of the post entry is not consulted, and
absence of either snapshot list yields false without throwing. -/
theorem claim_C7_isTrade_amended (tx : Transaction) :
    isTradeTransaction tx = true ↔
      ∃ meta preBalances postBalances, tx.meta = some meta ∧
        meta.preTokenBalances = some preBalances ∧
        meta.postTokenBalances = some postBalances ∧
        ∃ (i : Nat) (pre post : TokenBalance) (preAmount postAmount : ℚ),
          preBalances[i]? = some pre ∧ postBalances[i]? = some post ∧
          truthyOwner pre.owner = true ∧
          tokenAmount pre = some preAmount ∧ tokenAmount post = some postAmount ∧
          preAmount ≠ postAmount := by
  constructor
  · intro h
    unfold isTradeTransaction at h
    split at h
    · exact absurd h (by simp)
    · rename_i meta hmeta
      split at h
      · rename_i preBalances postBalances hpre hpost
        rw [List.any_eq_true] at h
        obtain ⟨i, hi, hcond⟩ := h
        refine ⟨meta, preBalances, postBalances, hmeta, hpre, hpost, i, ?_⟩
        split at hcond
        · rename_i pre hgpre
          unfold tokenPairTrade at hcond
          split at hcond
          · exact absurd hcond (by simp)
          · rename_i post hgpost
            simp only [Bool.and_eq_true] at hcond
            obtain ⟨⟨⟨how, hupre⟩, hupost⟩, hdiff⟩ := hcond
            split at hdiff
            · rename_i preAmount postAmount hta htb
              refine ⟨pre, post, preAmount, postAmount, hgpre, hgpost, how, hta, htb, ?_⟩
              have := of_decide_eq_true hdiff
              intro heq
              rw [heq, sub_self, abs_zero] at this
              exact lt_irrefl 0 this
            · exact absurd hdiff (by simp)
        · exact absurd hcond (by simp)
      · exact absurd h (by simp)
  · rintro ⟨meta, preBalances, postBalances, hmeta, hpre, hpost, i, pre, post,
      preAmount, postAmount, hgpre, hgpost, how, hta, htb, hne⟩
    simp only [isTradeTransaction, hmeta, hpre, hpost, List.any_eq_true]
    refine ⟨i, ?_, ?_⟩
    · rw [List.mem_range]
      exact (List.getElem?_eq_some.mp hgpre).1
    · simp only [hgpre, hgpost, tokenPairTrade]
      have hupre : pre.uiTokenAmount.isSome = true := by
        unfold tokenAmount at hta
        cases hu : pre.uiTokenAmount with
        | none => rw [hu] at hta; exact absurd hta (by simp)
        | some u => rfl
      have hupost : post.uiTokenAmount.isSome = true := by
        unfold tokenAmount at htb
        cases hu : post.uiTokenAmount with
        | none => rw [hu] at htb; exact absurd htb (by simp)
        | some u => rfl
      simp only [how, hupre, hupost, Bool.and_self, Bool.true_and]
      rw [hta, htb]
      exact decide_eq_true (abs_pos.mpr (sub_ne_zero.mpr (Ne.symm hne)))

/-- Witness for the amended claim C7 at the scenario transaction. -/
theorem claim_C7_isTrade_amended_witness :
    isTradeTransaction scenarioTx = true ↔
      ∃ meta preBalances postBalances, scenarioTx.meta = some meta ∧
        meta.preTokenBalances = some preBalances ∧
        meta.postTokenBalances = some postBalances ∧
        ∃ (i : Nat) (pre post : TokenBalance) (preAmount postAmount : ℚ),
          preBalances[i]? = some pre ∧ postBalances[i]? = some post ∧
          truthyOwner pre.owner = true ∧
          tokenAmount pre = some preAmount ∧ tokenAmount post = some postAmount ∧
          preAmount ≠ postAmount :=
  claim_C7_isTrade_amended scenarioTx

/-! ### Claim C9: attribution uses only the owner of the pre entry -/

/-- Claim C9: the ledger update for an index-aligned token-balance pair
is attributed to the owner named by the pre entry only.  The owner field
of the post entry is never consulted (replacing it by anything, present
or absent, leaves the update unchanged), and a pair whose pre entry
lacks a truthy owner is skipped even when the post entry carries one. -/
theorem claim_C9_preOwnerAttribution (tradeValue : ℚ) (ledger : Ledger)
    (pre post : TokenBalance) :
    (∀ o : Option String,
      applyPair tradeValue ledger pre (some { post with owner := o }) =
        applyPair tradeValue ledger pre (some post)) ∧
    (truthyOwner pre.owner = false →
      ∀ post? : Option TokenBalance,
        applyPair tradeValue ledger pre post? = ledger) := by
  constructor
  · intro o
    rfl
  · intro h post?
    cases post? with
    | none => rfl
    | some p => simp [applyPair, h]

/-- Witness for claim C9: a pre entry without an owner is skipped even
though the post entry names an owner and the amounts differ. -/
theorem claim_C9_preOwnerAttribution_witness :
    applyPair 1 []
      ({ owner := none, uiTokenAmount := some ({ amount := some 1 }) })
      (some ({ owner := some "B", uiTokenAmount := some ({ amount := some 2 }) })) = [] :=
  (claim_C9_preOwnerAttribution 1 []
      ({ owner := none, uiTokenAmount := some ({ amount := some 1 }) })
      ({ owner := some "B", uiTokenAmount := some ({ amount := some 2 }) })).2
    rfl (some ({ owner := some "B", uiTokenAmount := some ({ amount := some 2 }) }))

/-! ### Claim C10: the report only touches solBalance and usdProfit -/

/-- Forall₂ between a list and its image under a function, from a
pointwise property. -/
theorem forall2_map_pointwise {α : Type} (f : α → α) (R : α → α → Prop) :
    ∀ l : List α, (∀ a ∈ l, R a (f a)) → List.Forall₂ R l (l.map f)
  | [], _ => List.Forall₂.nil
  | a :: t, h =>
    List.Forall₂.cons (h a (List.mem_cons_self a t))
      (forall2_map_pointwise f R t (fun b hb => h b (List.mem_cons_of_mem a hb)))

/-- Claim C10: producing a report mutates only the solBalance and
usdProfit fields of the at most 10 selected records; every record keeps
its profit, trades, totalVolume, successfulTrades and averageTradeSize,
and a record whose address was not selected is unchanged in every
field. -/
theorem claim_C10_reportFrame (ledger : Ledger) (balanceOf : String → ℚ)
    (solPrice : ℚ) :
    List.Forall₂ (fun e e2 : String × TraderData =>
        e2.1 = e.1 ∧ e2.2.profit = e.2.profit ∧ e2.2.trades = e.2.trades ∧
        e2.2.totalVolume = e.2.totalVolume ∧
        e2.2.successfulTrades = e.2.successfulTrades ∧
        e2.2.averageTradeSize = e.2.averageTradeSize ∧
        (e.1 ∉ (eligibleTraders ledger).map (fun x => x.1) → e2 = e))
      ledger (displayResults ledger balanceOf solPrice).1 ∧
    ((eligibleTraders ledger).map (fun x => x.1)).length ≤ 10 := by
  constructor
  · simp only [displayResults]
    apply forall2_map_pointwise
    intro e _
    by_cases hc : ((eligibleTraders ledger).map (fun x => x.1)).contains e.1
    · rw [if_pos hc]
      refine ⟨rfl, rfl, rfl, rfl, rfl, rfl, fun hnot => ?_⟩
      exact absurd (by simpa using hc) hnot
    · rw [if_neg hc]
      exact ⟨rfl, rfl, rfl, rfl, rfl, rfl, fun _ => rfl⟩
  · rw [List.length_map]
    exact List.length_take_le _ _

/-- Witness for claim C10 at a one-record ledger. -/
theorem claim_C10_reportFrame_witness :
    List.Forall₂ (fun e e2 : String × TraderData =>
        e2.1 = e.1 ∧ e2.2.profit = e.2.profit ∧ e2.2.trades = e.2.trades ∧
        e2.2.totalVolume = e.2.totalVolume ∧
        e2.2.successfulTrades = e.2.successfulTrades ∧
        e2.2.averageTradeSize = e.2.averageTradeSize ∧
        (e.1 ∉ (eligibleTraders [("A", initTrader)]).map (fun x => x.1) → e2 = e))
      [("A", initTrader)]
      (displayResults [("A", initTrader)] (fun _ => 7) 3).1 ∧
    ((eligibleTraders [("A", initTrader)]).map (fun x => x.1)).length ≤ 10 :=
  claim_C10_reportFrame [("A", initTrader)] (fun _ => 7) 3

/-! ### Claim C4: content, order and length of the report -/

theorem profitDescLe_trans : ∀ a b c : String × TraderData,
    profitDescLe a b = true → profitDescLe b c = true → profitDescLe a c = true := by
  intro a b c hab hbc
  exact decide_eq_true (le_trans (of_decide_eq_true hbc) (of_decide_eq_true hab))

theorem profitDescLe_total : ∀ a b : String × TraderData,
    (profitDescLe a b || profitDescLe b a) = true := by
  intro a b
  rcases le_total (profitKey b.2.profit) (profitKey a.2.profit) with h | h
  · rw [Bool.or_eq_true]
    exact Or.inl (decide_eq_true h)
  · rw [Bool.or_eq_true]
    exact Or.inr (decide_eq_true h)

/-- Claim C4: every record of the reported top-traders sequence has
trades at least MIN_TRADES = 3, a profit that is a number strictly
greater than 0, and a win rate strictly greater than one half (a win
rate of exactly one half fails the strict test); the sequence is sorted
descending by profit; and its length is at most 10. -/
theorem claim_C4_topTradersReport (ledger : Ledger) (balanceOf : String → ℚ)
    (solPrice : ℚ) :
    (∀ e ∈ (displayResults ledger balanceOf solPrice).2,
      MIN_TRADES ≤ e.2.trades ∧
      (∃ p, e.2.profit = some p ∧ 0 < p) ∧
      (1 : ℚ) / 2 < (e.2.successfulTrades : ℚ) / (e.2.trades : ℚ)) ∧
    List.Pairwise (fun a b : String × TraderData =>
      profitKey b.2.profit ≤ profitKey a.2.profit)
      (displayResults ledger balanceOf solPrice).2 ∧
    (displayResults ledger balanceOf solPrice).2.length ≤ 10 := by
  refine ⟨?_, ?_, ?_⟩
  · intro e he
    simp only [displayResults] at he
    obtain ⟨x, hx, rfl⟩ := List.mem_map.mp he
    have hx2 : x ∈ (ledger.filter (fun e => eligibleFilter e.2)).mergeSort profitDescLe :=
      List.mem_of_mem_take hx
    have hx3 : x ∈ ledger.filter (fun e => eligibleFilter e.2) :=
      List.mem_mergeSort.mp hx2
    have hfilt : eligibleFilter x.2 = true := (List.mem_filter.mp hx3).2
    simp only [eligibleFilter, Bool.and_eq_true, decide_eq_true_eq] at hfilt
    obtain ⟨⟨htrades, hprofit⟩, hrate⟩ := hfilt
    refine ⟨htrades, ?_, hrate⟩
    cases hp : x.2.profit with
    | none => rw [hp] at hprofit; exact absurd hprofit (by simp [numPos])
    | some p =>
      rw [hp] at hprofit
      exact ⟨p, hp, of_decide_eq_true hprofit⟩
  · simp only [displayResults]
    rw [List.pairwise_map]
    have hsorted :
        List.Pairwise (fun a b => profitDescLe a b = true)
          ((ledger.filter (fun e => eligibleFilter e.2)).mergeSort profitDescLe) :=
      List.sorted_mergeSort profitDescLe_trans profitDescLe_total _
    have htake :
        List.Pairwise (fun a b => profitDescLe a b = true) (eligibleTraders ledger) :=
      List.Pairwise.sublist (List.take_sublist _ _) hsorted
    exact htake.imp (fun h => of_decide_eq_true h)
  · simp only [displayResults]
    rw [List.length_map]
    exact List.length_take_le _ _

/-- A ledger record qualifying for the report: 4 trades, 3 of them
successful (win rate 0.75), positive profit. -/
def demoTrader : TraderData :=
  { profit := some 10, trades := 4, totalVolume := 8, successfulTrades := 3,
    averageTradeSize := 2, solBalance := 0, usdProfit := some 0 }

unseal Rat.add Rat.mul Rat.inv Rat.sub in
/-- Witness for claim C4 at a one-record ledger. -/
theorem claim_C4_topTradersReport_witness :
    MIN_TRADES ≤ (enrichTrader (fun _ => 7) 3 ("A", demoTrader)).2.trades ∧
    (∃ p, (enrichTrader (fun _ => 7) 3 ("A", demoTrader)).2.profit = some p ∧ 0 < p) ∧
    (1 : ℚ) / 2 <
      ((enrichTrader (fun _ => 7) 3 ("A", demoTrader)).2.successfulTrades : ℚ) /
        ((enrichTrader (fun _ => 7) 3 ("A", demoTrader)).2.trades : ℚ) :=
  (claim_C4_topTradersReport [("A", demoTrader)] (fun _ => 7) 3).1
    (enrichTrader (fun _ => 7) 3 ("A", demoTrader))
    (by
      have hfilt : List.filter (fun e => eligibleFilter e.2) [("A", demoTrader)] =
          [("A", demoTrader)] := by decide
      show enrichTrader (fun _ => 7) 3 ("A", demoTrader) ∈
        (((List.filter (fun e => eligibleFilter e.2)
            [("A", demoTrader)]).mergeSort profitDescLe).take 10).map
          (enrichTrader (fun _ => 7) 3)
      rw [hfilt, List.mergeSort_singleton]
      simp)

/-! ### Claim C6: invariants of the ledger under apply -/

/-- The part of the record invariant that already holds for the freshly
created record, before its first update. -/
def recordWeakInv (d : TraderData) : Prop :=
  d.successfulTrades ≤ d.trades ∧ 0 ≤ d.totalVolume ∧
    d.averageTradeSize * (d.trades : ℚ) = d.totalVolume

/-- The full record invariant: at least one trade, no more successful
trades than trades, non-negative volume, and an average consistent with
the volume. -/
def recordInv (d : TraderData) : Prop := 1 ≤ d.trades ∧ recordWeakInv d

theorem initTrader_weakInv : recordWeakInv initTrader := by
  refine ⟨Nat.le_refl 0, le_refl 0, ?_⟩
  simp [initTrader]

theorem applyPairUpdate_inv (tradeValue : ℚ) (change : Option ℚ) (d : TraderData)
    (hd : recordWeakInv d) (htv : 0 ≤ tradeValue) :
    recordInv (applyPairUpdate tradeValue change d) := by
  obtain ⟨hs, hv, _⟩ := hd
  refine ⟨by simp [applyPairUpdate], ?_, ?_, ?_⟩
  · simp only [applyPairUpdate]
    split <;> omega
  · exact add_nonneg hv htv
  · show (d.totalVolume + tradeValue) / ((d.trades : ℚ) + 1) *
      ((d.trades + 1 : Nat) : ℚ) = d.totalVolume + tradeValue
    push_cast
    rw [div_mul_cancel₀]
    positivity

theorem updateTrader_inv (f : TraderData → TraderData)
    (hf : ∀ d, recordWeakInv d → recordInv (f d)) (owner : String) :
    ∀ led : Ledger, (∀ e ∈ led, recordInv e.2) →
      ∀ e ∈ updateTrader led owner f, recordInv e.2 := by
  intro led
  induction led with
  | nil =>
    intro _ e he
    simp only [updateTrader, List.mem_singleton] at he
    rw [he]
    exact hf initTrader initTrader_weakInv
  | cons a rest ih =>
    intro hled e he
    simp only [updateTrader] at he
    by_cases hao : a.1 = owner
    · rw [if_pos hao] at he
      rcases List.mem_cons.mp he with h | h
      · rw [h]
        exact hf a.2 (hled a (List.mem_cons_self a rest)).2
      · exact hled e (List.mem_cons_of_mem a h)
    · rw [if_neg hao] at he
      rcases List.mem_cons.mp he with h | h
      · rw [h]
        exact hled a (List.mem_cons_self a rest)
      · exact ih (fun x hx => hled x (List.mem_cons_of_mem a hx)) e h

theorem applyPair_inv (tradeValue : ℚ) (htv : 0 ≤ tradeValue)
    (pre : TokenBalance) (post? : Option TokenBalance) (led : Ledger)
    (hled : ∀ e ∈ led, recordInv e.2) :
    ∀ e ∈ applyPair tradeValue led pre post?, recordInv e.2 := by
  cases post? with
  | none => exact hled
  | some post =>
    simp only [applyPair]
    split
    · split
      · exact updateTrader_inv _
          (fun d hd => applyPairUpdate_inv tradeValue _ d hd htv) _ led hled
      · exact hled
    · exact hled

theorem applyPairs_foldl_inv (tradeValue : ℚ) (htv : 0 ≤ tradeValue)
    (preBalances postBalances : List TokenBalance) :
    ∀ (idxs : List Nat) (led : Ledger), (∀ e ∈ led, recordInv e.2) →
      ∀ e ∈ idxs.foldl (fun led i =>
          match preBalances[i]? with
          | some pre => applyPair tradeValue led pre postBalances[i]?
          | none => led) led, recordInv e.2 := by
  intro idxs
  induction idxs with
  | nil => intro led hled; exact hled
  | cons i rest ih =>
    intro led hled
    simp only [List.foldl_cons]
    apply ih
    cases hgi : preBalances[i]? with
    | none => simpa [hgi] using hled
    | some pre =>
      simpa [hgi] using applyPair_inv tradeValue htv pre postBalances[i]? led hled

theorem tradeValue_foldl_nonneg (preBalances postBalances : List ℤ) :
    ∀ (idxs : List Nat) (init : ℚ), 0 ≤ init →
      0 ≤ idxs.foldl (fun totalChange i =>
        match preBalances[i]?, postBalances[i]? with
        | some preBalance, some postBalance =>
          let change := |((postBalance - preBalance : ℤ) : ℚ)| / LAMPORTS_PER_SOL
          if 1 / 1000 < change then totalChange + change else totalChange
        | _, _ => totalChange) init := by
  intro idxs
  induction idxs with
  | nil => intro init h; exact h
  | cons i rest ih =>
    intro init h
    simp only [List.foldl_cons]
    apply ih
    cases preBalances[i]? with
    | none => exact h
    | some preBalance =>
      cases postBalances[i]? with
      | none => exact h
      | some postBalance =>
        simp only []
        split
        · apply add_nonneg h
          apply div_nonneg (abs_nonneg _)
          norm_num [LAMPORTS_PER_SOL]
        · exact h

theorem calculateTradeValue_nonneg (tx : Transaction) :
    0 ≤ calculateTradeValue tx := by
  unfold calculateTradeValue
  split
  · exact le_refl 0
  · split
    · exact tradeValue_foldl_nonneg _ _ _ 0 (le_refl 0)
    · exact le_refl 0

theorem applyTransaction_inv (led : Ledger) (tx : Transaction)
    (hled : ∀ e ∈ led, recordInv e.2) :
    ∀ e ∈ applyTransaction led tx, recordInv e.2 := by
  cases hm : tx.meta with
  | none => simpa [applyTransaction, hm] using hled
  | some meta =>
    by_cases hit : isTradeTransaction tx = true
    · by_cases htv : calculateTradeValue tx = 0
      · simpa [applyTransaction, hm, hit, htv] using hled
      · have hrw : applyTransaction led tx =
            (List.range ((meta.preTokenBalances.getD []).length)).foldl
              (fun led i =>
                match (meta.preTokenBalances.getD [])[i]? with
                | some pre =>
                  applyPair (calculateTradeValue tx) led pre
                    ((meta.postTokenBalances.getD [])[i]?)
                | none => led) led := by
          simp [applyTransaction, hm, hit, htv]
        rw [hrw]
        exact applyPairs_foldl_inv _ (calculateTradeValue_nonneg tx) _ _ _ led hled
    · simpa [applyTransaction, hm, hit] using hled

theorem applySeq_inv :
    ∀ (txs : List Transaction) (led : Ledger), (∀ e ∈ led, recordInv e.2) →
      ∀ e ∈ txs.foldl applyTransaction led, recordInv e.2 := by
  intro txs
  induction txs with
  | nil => intro led hled; exact hled
  | cons tx rest ih =>
    intro led hled
    simp only [List.foldl_cons]
    exact ih (applyTransaction led tx) (applyTransaction_inv led tx hled)

/-- Claim C6: after any sequence of per-transaction apply calls starting
from an empty ledger, every record satisfies trades at least 1 (so the
averageTradeSize division is never by zero and no record with zero
trades exists), successfulTrades at most trades, non-negative
totalVolume, and averageTradeSize times trades equal to totalVolume. -/
theorem claim_C6_ledgerInvariants (txs : List Transaction)
    (e : String × TraderData) (he : e ∈ txs.foldl applyTransaction ([] : Ledger)) :
    1 ≤ e.2.trades ∧ e.2.successfulTrades ≤ e.2.trades ∧
      0 ≤ e.2.totalVolume ∧
      e.2.averageTradeSize * (e.2.trades : ℚ) = e.2.totalVolume := by
  have h := applySeq_inv txs [] (by intro x hx; cases hx) e he
  exact ⟨h.1, h.2.1, h.2.2.1, h.2.2.2⟩

unseal Rat.add Rat.mul Rat.inv Rat.sub in
/-- Witness for claim C6: the record of wallet A after applying the
scenario transaction to the empty ledger. -/
theorem claim_C6_ledgerInvariants_witness :
    1 ≤ ({ profit := some 5, trades := 1, totalVolume := 23 / 10,
           successfulTrades := 1, averageTradeSize := 23 / 10,
           solBalance := 0, usdProfit := some 0 } : TraderData).trades ∧
    ({ profit := some 5, trades := 1, totalVolume := 23 / 10,
       successfulTrades := 1, averageTradeSize := 23 / 10,
       solBalance := 0, usdProfit := some 0 } : TraderData).successfulTrades ≤
      ({ profit := some 5, trades := 1, totalVolume := 23 / 10,
         successfulTrades := 1, averageTradeSize := 23 / 10,
         solBalance := 0, usdProfit := some 0 } : TraderData).trades ∧
    0 ≤ ({ profit := some 5, trades := 1, totalVolume := 23 / 10,
           successfulTrades := 1, averageTradeSize := 23 / 10,
           solBalance := 0, usdProfit := some 0 } : TraderData).totalVolume ∧
    ({ profit := some 5, trades := 1, totalVolume := 23 / 10,
       successfulTrades := 1, averageTradeSize := 23 / 10,
       solBalance := 0, usdProfit := some 0 } : TraderData).averageTradeSize *
        (({ profit := some 5, trades := 1, totalVolume := 23 / 10,
            successfulTrades := 1, averageTradeSize := 23 / 10,
            solBalance := 0, usdProfit := some 0 } : TraderData).trades : ℚ) =
      ({ profit := some 5, trades := 1, totalVolume := 23 / 10,
         successfulTrades := 1, averageTradeSize := 23 / 10,
         solBalance := 0, usdProfit := some 0 } : TraderData).totalVolume :=
  claim_C6_ledgerInvariants [scenarioTx]
    ("A", { profit := some 5, trades := 1, totalVolume := 23 / 10,
            successfulTrades := 1, averageTradeSize := 23 / 10,
            solBalance := 0, usdProfit := some 0 })
    (by decide)

/-! ### Claim C1: the intermediate report reprocesses the whole window -/

/-- A signature within the window: blockTime 1000 s = 1000000 ms. -/
def recentSig (i : Nat) : SigInfo := { signature := toString i, blockTime := some 1000 }

/-- A provider returning four pages of 50 recent signatures (indices 0
to 199) followed by one page holding a single signature older than the
window boundary. -/
def doubleFetch (c : Option String) : List SigInfo :=
  match c with
  | none => (List.range 50).map (fun j => recentSig j)
  | some s =>
    if s == "49" then (List.range 50).map (fun j => recentSig (50 + j))
    else if s == "99" then (List.range 50).map (fun j => recentSig (100 + j))
    else if s == "149" then (List.range 50).map (fun j => recentSig (150 + j))
    else if s == "199" then [{ signature := "old", blockTime := some 1 }]
    else []

/-- Only signature 0 resolves to a transaction: the two-pair scenario
transaction crediting wallets A and B. -/
def doubleTxFetch (s : String) : Option Transaction :=
  if s == "0" then some scenarioTx else none

set_option maxRecDepth 100000 in
unseal Rat.add Rat.mul Rat.inv Rat.sub in
/-- Claim C1 is violated by the code (code bug): with now = 2000000 ms
and a 1500000 ms window, the loop fetches 200 recent signatures, runs
the intermediate pass at totalFetched = 200 over the whole accumulated
list, then hits the window boundary and runs the final in-loop pass over
the same 200 signatures again.  Signature 0 is therefore fetched,
classified and applied twice in one window, and wallet A ends with
trades = 2 and profit = 10 instead of trades = 1 and profit = 5: the
intermediate report is a re-aggregation pass over the whole accumulated
list (the ledger is never reset within the window), not a snapshot. -/
theorem claim_C1_intermediateRepassDoubleCounts :
    (runWindow doubleFetch doubleTxFetch 2000000 1500000).processedLog.count "0" = 2 ∧
    lookupTrader (runWindow doubleFetch doubleTxFetch 2000000 1500000).ledger "A" =
      some { profit := some 10, trades := 2, totalVolume := 23 / 5,
             successfulTrades := 2, averageTradeSize := 23 / 10,
             solBalance := 0, usdProfit := some 0 } := by
  decide

/-! ### Claim C2: what pagination filtering does and does not remove -/

/-- A provider whose first page holds a signature with a missing
blockTime followed by a recent signature; every later page is empty. -/
def nullTimeFetch (c : Option String) : List SigInfo :=
  match c with
  | none => [{ signature := "a", blockTime := none },
             { signature := "b", blockTime := some 1000 }]
  | some _ => []

/-- Counterexample to claim C2 as stated: a signature with a missing
blockTime (treated as timestamp 0, older than now - windowDurationMs)
sits mid-page while the oldest entry of the page is recent, so the page
is appended unfiltered: the accumulated list does contain a signature
older than the boundary, and the missing blockTime does not force
pagination to terminate (a further page is requested afterwards). -/
theorem claim_C2_pagination_counterexample :
    ({ signature := "a", blockTime := none } : SigInfo) ∈
      (runWindow nullTimeFetch (fun _ => none) 2000000 1500000).allSignatures ∧
    sigTimeMs { signature := "a", blockTime := none } < 2000000 - 1500000 := by
  decide

/-- Claim C2 as amended: the filter is applied only to the page whose
oldest (last) entry is older than now - windowDurationMs (a missing
blockTime counting as timestamp 0); within that final page no signature
older than the boundary is accumulated, and a missing blockTime on the
oldest entry of a page forces the loop to stop after that page whenever
the window boundary is in the past.  Pages appended before that are not
filtered (see the counterexample). -/
theorem claim_C2_pagination_amended
    (fetch : Option String → List SigInfo) (txFetch : String → Option Transaction)
    (now ms : ℤ) (fuel : Nat) (allSigs : List SigInfo) (lastSig : Option String)
    (totalFetched : Nat) (ledger : Ledger) (log : List String)
    (hrun : totalFetched < MAX_TRANSACTIONS_PER_INTERVAL)
    (hne : fetch lastSig ≠ [])
    (hlast : ((fetch lastSig).getLast?).bind SigInfo.blockTime = none)
    (hcut : 0 < now - ms) :
    windowLoop fetch txFetch now ms (fuel + 1) allSigs lastSig totalFetched ledger log =
      ⟨allSigs ++ (fetch lastSig).filter (fun s => decide (now - ms ≤ sigTimeMs s)),
       totalFetched + (fetch lastSig).length,
       processAll txFetch ledger
         (allSigs ++ (fetch lastSig).filter (fun s => decide (now - ms ≤ sigTimeMs s))),
       log ++ (allSigs ++ (fetch lastSig).filter
         (fun s => decide (now - ms ≤ sigTimeMs s))).map (fun s => s.signature)⟩ ∧
    ∀ s ∈ (fetch lastSig).filter (fun s => decide (now - ms ≤ sigTimeMs s)),
      now - ms ≤ sigTimeMs s := by
  obtain ⟨l, hgl, hbt⟩ : ∃ l, (fetch lastSig).getLast? = some l ∧ l.blockTime = none := by
    cases hgl : (fetch lastSig).getLast? with
    | none => exact absurd (List.getLast?_eq_none_iff.mp hgl) hne
    | some l =>
      rw [hgl] at hlast
      exact ⟨l, rfl, by simpa using hlast⟩
  constructor
  · have hemp : (fetch lastSig).isEmpty = false :=
      Bool.eq_false_iff.mpr (fun h => hne (List.isEmpty_eq_true.mp h))
    have htime : sigTimeMs l = 0 := by simp [sigTimeMs, hbt]
    simp only [windowLoop, if_pos hrun, hemp, Bool.false_eq_true, if_false, hgl, htime,
      if_pos hcut]
  · intro s hs
    exact of_decide_eq_true (List.mem_filter.mp hs).2

/-- A provider whose single page carries one signature with a missing
blockTime. -/
def nullLastFetch : Option String → List SigInfo :=
  fun _ => [{ signature := "x", blockTime := none }]

/-- Witness for the amended claim C2 at a concrete provider. -/
theorem claim_C2_pagination_amended_witness :
    windowLoop nullLastFetch (fun _ => none) 2000000 1500000 (800 + 1) [] none 0 [] [] =
      ⟨[] ++ (nullLastFetch none).filter
         (fun s => decide ((2000000 : ℤ) - 1500000 ≤ sigTimeMs s)),
       0 + (nullLastFetch none).length,
       processAll (fun _ => none) []
         ([] ++ (nullLastFetch none).filter
           (fun s => decide ((2000000 : ℤ) - 1500000 ≤ sigTimeMs s))),
       [] ++ ([] ++ (nullLastFetch none).filter
         (fun s => decide ((2000000 : ℤ) - 1500000 ≤ sigTimeMs s))).map
           (fun s : SigInfo => s.signature)⟩ ∧
    ∀ s ∈ (nullLastFetch none).filter
        (fun s => decide ((2000000 : ℤ) - 1500000 ≤ sigTimeMs s)),
      (2000000 : ℤ) - 1500000 ≤ sigTimeMs s :=
  claim_C2_pagination_amended nullLastFetch (fun _ => none) 2000000 1500000 800
    [] none 0 [] [] (by decide) (by decide) rfl (by decide)

/-! ### Claim C8: termination and the real accumulation bound -/

/-- The per-page provider for the cap counterexample: seventeen pages of
49 recent signatures each (indices 0 to 832); every page respects the
requested limit BATCH_SIZE = 50. -/
def capFetch (c : Option String) : List SigInfo :=
  let start : Nat := match c with
    | none => 0
    | some s =>
      ((((List.range 17).find? (fun k => s == toString (49 * k + 48))).map
        (fun k => 49 * (k + 1))).getD 833)
  if start < 833 then (List.range 49).map (fun j => recentSig (start + j)) else []

/-- Every page returned by capFetch respects the requested batch size. -/
theorem capFetch_page_le (c : Option String) : (capFetch c).length ≤ BATCH_SIZE := by
  cases c with
  | none => decide
  | some s =>
    unfold capFetch
    dsimp only
    split
    · rw [List.length_map, List.length_range]
      norm_num [BATCH_SIZE]
    · simp [BATCH_SIZE]

set_option maxRecDepth 400000 in
/-- Counterexample to claim C8 as stated: with pages of 49 signatures
(within the requested batch size of 50) the cap test runs only between
pages, so the loop stops with 833 accumulated signatures, exceeding the
per-window cap of 800. -/
theorem claim_C8_capOverflow_counterexample :
    (∀ c, (capFetch c).length ≤ BATCH_SIZE) ∧
    MAX_TRANSACTIONS_PER_INTERVAL <
      (runWindow capFetch (fun _ => none) 2000000 1500000).allSignatures.length := by
  constructor
  · exact capFetch_page_le
  · decide

/-- The loop invariant behind the amended claim C8: starting from a
state whose accumulated list is no longer than the fetch counter, whose
counter is within the overshoot bound, and whose processing log draws
from the accumulated list, the loop preserves all three properties and
only ever extends the accumulated list. -/
theorem windowLoop_accum_inv (fetch : Option String → List SigInfo)
    (txFetch : String → Option Transaction) (now ms : ℤ)
    (hpage : ∀ c, (fetch c).length ≤ BATCH_SIZE) :
    ∀ (fuel : Nat) (allSigs : List SigInfo) (lastSig : Option String)
      (totalFetched : Nat) (ledger : Ledger) (log : List String),
      allSigs.length ≤ totalFetched →
      totalFetched ≤ MAX_TRANSACTIONS_PER_INTERVAL + BATCH_SIZE - 1 →
      (∀ s ∈ log, s ∈ allSigs.map (fun x => x.signature)) →
      (windowLoop fetch txFetch now ms fuel allSigs lastSig totalFetched
          ledger log).allSignatures.length ≤
        (windowLoop fetch txFetch now ms fuel allSigs lastSig totalFetched
          ledger log).totalFetched ∧
      (windowLoop fetch txFetch now ms fuel allSigs lastSig totalFetched
          ledger log).totalFetched ≤
        MAX_TRANSACTIONS_PER_INTERVAL + BATCH_SIZE - 1 ∧
      (∀ s ∈ (windowLoop fetch txFetch now ms fuel allSigs lastSig totalFetched
          ledger log).processedLog,
        s ∈ (windowLoop fetch txFetch now ms fuel allSigs lastSig totalFetched
          ledger log).allSignatures.map (fun x => x.signature)) ∧
      (∀ x ∈ allSigs,
        x ∈ (windowLoop fetch txFetch now ms fuel allSigs lastSig totalFetched
          ledger log).allSignatures) := by
  intro fuel
  induction fuel with
  | zero =>
    intro allSigs lastSig totalFetched ledger log hlen hbound hlog
    exact ⟨hlen, hbound, hlog, fun x hx => hx⟩
  | succ f ih =>
    intro allSigs lastSig totalFetched ledger log hlen hbound hlog
    simp only [windowLoop]
    by_cases hrun : totalFetched < MAX_TRANSACTIONS_PER_INTERVAL
    · simp only [if_pos hrun]
      by_cases hemp : (fetch lastSig).isEmpty = true
      · simp only [hemp, if_true]
        exact ⟨hlen, hbound, hlog, fun x hx => hx⟩
      · have hne : fetch lastSig ≠ [] := fun hnil => hemp (by simp [hnil])
        have hlen1 : 0 < (fetch lastSig).length := List.length_pos.mpr hne
        have hlenB : (fetch lastSig).length ≤ BATCH_SIZE := hpage lastSig
        simp only [hemp, Bool.false_eq_true, if_false]
        by_cases htoo : (match (fetch lastSig).getLast? with
            | some oldestTx => sigTimeMs oldestTx
            | none => 0) < now - ms
        · rw [if_pos htoo]
          refine ⟨?_, ?_, ?_, ?_⟩
          · show (allSigs ++ (fetch lastSig).filter _).length ≤
              totalFetched + (fetch lastSig).length
            rw [List.length_append]
            have := List.length_filter_le
              (fun s => decide (now - ms ≤ sigTimeMs s)) (fetch lastSig)
            omega
          · show totalFetched + (fetch lastSig).length ≤
              MAX_TRANSACTIONS_PER_INTERVAL + BATCH_SIZE - 1
            omega
          · intro s hs
            show s ∈ (allSigs ++ (fetch lastSig).filter _).map (fun x => x.signature)
            rcases List.mem_append.mp hs with h | h
            · rcases List.mem_map.mp (hlog s h) with ⟨x, hx, hxs⟩
              exact List.mem_map.mpr ⟨x, List.mem_append_left _ hx, hxs⟩
            · exact h
          · intro x hx
            exact List.mem_append_left _ hx
        · rw [if_neg htoo]
          by_cases hcap :
              MAX_TRANSACTIONS_PER_INTERVAL ≤ totalFetched + (fetch lastSig).length
          · rw [if_pos hcap]
            refine ⟨?_, ?_, ?_, ?_⟩
            · show (allSigs ++ fetch lastSig).length ≤
                totalFetched + (fetch lastSig).length
              rw [List.length_append]
              omega
            · show totalFetched + (fetch lastSig).length ≤
                MAX_TRANSACTIONS_PER_INTERVAL + BATCH_SIZE - 1
              omega
            · intro s hs
              show s ∈ (allSigs ++ fetch lastSig).map (fun x => x.signature)
              rcases List.mem_append.mp hs with h | h
              · rcases List.mem_map.mp (hlog s h) with ⟨x, hx, hxs⟩
                exact List.mem_map.mpr ⟨x, List.mem_append_left _ hx, hxs⟩
              · exact h
            · intro x hx
              exact List.mem_append_left _ hx
          · rw [if_neg hcap]
            have hlen2 : (allSigs ++ fetch lastSig).length ≤
                totalFetched + (fetch lastSig).length := by
              rw [List.length_append]; omega
            have hbound2 : totalFetched + (fetch lastSig).length ≤
                MAX_TRANSACTIONS_PER_INTERVAL + BATCH_SIZE - 1 := by omega
            by_cases hmod : (totalFetched + (fetch lastSig).length) % 200 == 0
            · rw [if_pos hmod]
              have hlog2 : ∀ s ∈ log ++ (allSigs ++ fetch lastSig).map
                  (fun x => x.signature),
                  s ∈ (allSigs ++ fetch lastSig).map (fun x => x.signature) := by
                intro s hs
                rcases List.mem_append.mp hs with h | h
                · rcases List.mem_map.mp (hlog s h) with ⟨x, hx, hxs⟩
                  exact List.mem_map.mpr ⟨x, List.mem_append_left _ hx, hxs⟩
                · exact h
              obtain ⟨h1, h2, h3, h4⟩ := ih (allSigs ++ fetch lastSig) _ _ _ _
                hlen2 hbound2 hlog2
              exact ⟨h1, h2, h3, fun x hx => h4 x (List.mem_append_left _ hx)⟩
            · rw [if_neg hmod]
              have hlog2 : ∀ s ∈ log,
                  s ∈ (allSigs ++ fetch lastSig).map (fun x => x.signature) := by
                intro s hs
                rcases List.mem_map.mp (hlog s hs) with ⟨x, hx, hxs⟩
                exact List.mem_map.mpr ⟨x, List.mem_append_left _ hx, hxs⟩
              obtain ⟨h1, h2, h3, h4⟩ := ih (allSigs ++ fetch lastSig) _ _ _ _
                hlen2 hbound2 hlog2
              exact ⟨h1, h2, h3, fun x hx => h4 x (List.mem_append_left _ hx)⟩
    · simp only [if_neg hrun]
      exact ⟨hlen, hbound, hlog, fun x hx => hx⟩

/-- Claim C8 as amended: for every provider behaviour the loop
terminates (any fuel beyond the cap gives the same result, because every
iteration either stops or strictly increases totalFetched toward the
cap); when every returned page respects the requested batch size of 50
the accumulated list never exceeds 800 + 50 - 1 = 849 signatures (the
cap is only checked between pages, so the stated cap of 800 can be
overshot by up to one page); and every transaction the caller processes
comes from the accumulated list, so at most 849 (which is at most the
unused global cap MAX_TRANSACTIONS = 1000) distinct transactions are
processed per window. -/
theorem claim_C8_pagination_amended (fetch : Option String → List SigInfo)
    (txFetch : String → Option Transaction) (now ms : ℤ)
    (hpage : ∀ c, (fetch c).length ≤ BATCH_SIZE) :
    (∀ fuel1 fuel2 : Nat, MAX_TRANSACTIONS_PER_INTERVAL < fuel1 →
      MAX_TRANSACTIONS_PER_INTERVAL < fuel2 →
      windowLoop fetch txFetch now ms fuel1 [] none 0 [] [] =
        windowLoop fetch txFetch now ms fuel2 [] none 0 [] []) ∧
    (runWindow fetch txFetch now ms).allSignatures.length ≤
      MAX_TRANSACTIONS_PER_INTERVAL + BATCH_SIZE - 1 ∧
    MAX_TRANSACTIONS_PER_INTERVAL + BATCH_SIZE - 1 ≤ MAX_TRANSACTIONS ∧
    (∀ s ∈ (runWindow fetch txFetch now ms).processedLog,
      s ∈ (runWindow fetch txFetch now ms).allSignatures.map
        (fun x => x.signature)) := by
  have hinv := windowLoop_accum_inv fetch txFetch now ms hpage
    (MAX_TRANSACTIONS_PER_INTERVAL + 1) [] none 0 [] []
    (Nat.le_refl 0) (by norm_num [MAX_TRANSACTIONS_PER_INTERVAL, BATCH_SIZE])
    (fun s hs => absurd hs (List.not_mem_nil s))
  refine ⟨?_, ?_, ?_, ?_⟩
  · intro fuel1 fuel2 h1 h2
    exact windowLoop_fuel_stable fetch txFetch now ms fuel1 fuel2 [] none 0 [] []
      (by omega) (by omega)
  · exact le_trans hinv.1 hinv.2.1
  · norm_num [MAX_TRANSACTIONS_PER_INTERVAL, BATCH_SIZE, MAX_TRANSACTIONS]
  · exact hinv.2.2.1

/-- Witness for the amended claim C8 at the counterexample provider. -/
theorem claim_C8_pagination_amended_witness :
    (runWindow capFetch (fun _ => none) 2000000 1500000).allSignatures.length ≤
      MAX_TRANSACTIONS_PER_INTERVAL + BATCH_SIZE - 1 :=
  (claim_C8_pagination_amended capFetch (fun _ => none) 2000000 1500000
    capFetch_page_le).2.1

end WalletTracker
